import Mathlib

/-!
Verification of the lead-management core of the `blocharch` dashboard
(`lib/db.js` and the Express route handlers).

The relational store is shallowly embedded as lists of rows with explicit
`SERIAL` counters.  Database `NOW()` timestamps are passed in as an explicit
`now : Nat` argument.  JavaScript `undefined`/absent values are modelled with
`Option`; a supplied-but-wrongly-typed JSON field (e.g. a non-numeric `score`,
a non-array `tags`) behaves in the source exactly like an absent one, so it is
also modelled as `none`.  `JSONB` metadata payloads on activities are not
modelled: no claim concerns them.
-/

namespace Blocharch

/-- A row of the `practices` table (`initSchema` in `lib/db.js`).
`created_at` and the `socials`/`awards` JSON lists are carried but never
inspected by the operations under verification. -/
structure Practice where
  id : Nat
  url : String
  name : String
  website : Option String
  socials : List String
  email : Option String
  address : Option String
  contact : Option String
  description : Option String
  years_active : Option String
  staff : Option String
  awards : List String
  source : String
  updated_at : Nat
deriving DecidableEq

/-- A row of the `leads` table. -/
structure Lead where
  id : Nat
  practice_id : Nat
  status : String
  score : Int
  notes : Option String
  tags : List String
  updated_at : Nat
deriving DecidableEq

/-- A row of the `activities` table (the `extra` JSONB column is omitted;
the PATCH handler never sets it and no claim mentions it). -/
structure Activity where
  id : Nat
  lead_id : Nat
  kind : String
  title : String
  body : String
deriving DecidableEq

/-- The whole relational store: the three row lists plus the `SERIAL`
counters that produce fresh primary keys. -/
structure Store where
  practices : List Practice
  leads : List Lead
  activities : List Activity
  nextPracticeId : Nat
  nextLeadId : Nat
  nextActivityId : Nat
deriving DecidableEq

/-- The `LEAD_STATUSES` array from `lib/db.js`. -/
def LEAD_STATUSES : List String :=
  ["new", "contacted", "qualified", "proposal", "negotiating", "won", "lost"]

/-- The own property names of `Object.prototype` in Node, which is the
prototype of the `stageMap` object literal: a bracket lookup with one of
these keys returns the inherited member (a function, or an object for
`__proto__`), never `undefined`. -/
def objectProtoKeys : List String :=
  ["constructor", "hasOwnProperty", "isPrototypeOf", "propertyIsEnumerable",
   "toLocaleString", "toString", "valueOf", "__proto__", "__defineGetter__",
   "__defineSetter__", "__lookupGetter__", "__lookupSetter__"]

/-- A defined result of the `stageMap[row.status]` bracket lookup: either an
own string property of the literal, or a member inherited from
`Object.prototype` (a function or object, identified here by its key; such a
value is never a string and is always JS-truthy). -/
inductive StageValue where
  | str (s : String)
  | protoMember (key : String)
deriving DecidableEq

/-- JS truthiness of a lookup result: a string is truthy iff non-empty; an
inherited prototype member (function or object) is always truthy. -/
def jsTruthy (v : StageValue) : Bool :=
  match v with
  | .str s => s != ""
  | .protoMember _ => true

/-- The `stageMap` object-literal lookup inside `listLeadsForN8n`, as JS
performs it: an own key returns its string value, shadowing the prototype;
otherwise the lookup walks up to `Object.prototype`, so one of its property
names returns the inherited member; only the remaining keys give
`undefined` (`none`). -/
def stageMap (st : String) : Option StageValue :=
  if st = "new" then some (.str "cold")
  else if st = "contacted" then some (.str "no_reply")
  else if st = "qualified" then some (.str "positive_reply")
  else if st = "proposal" then some (.str "positive_reply")
  else if st = "negotiating" then some (.str "positive_reply")
  else if st = "won" then some (.str "positive_reply")
  else if st = "lost" then some (.str "negative_reply")
  else if st ∈ objectProtoKeys then some (.protoMember st)
  else none

/-- The stage resolver applied to each row of the automation feed:
`stageMap[row.status] || 'cold'` — the fallback fires only when the lookup
result is falsy (`undefined`, or an empty string, which the map never
holds); an inherited prototype member is truthy and is returned as is. -/
def outreachStage (st : String) : StageValue :=
  match stageMap st with
  | some v => if jsTruthy v then v else .str "cold"
  | none => .str "cold"

/-- The body of a PATCH `/api/leads/:id` request (and the argument object of
`updateLead`): each field is independently absent (`none`, covering both JS
`undefined` and a value of the wrong type, which the source's type checks
treat identically) or supplied. -/
structure LeadPatch where
  status : Option String
  notes : Option String
  score : Option Int
  tags : Option (List String)
deriving DecidableEq

/-- The condition `status && LEAD_STATUSES.includes(status)` shared by
`updateLead` and the PATCH handler: the string is truthy (non-empty) and a
member of the enum. -/
def validStatus (st : String) : Bool :=
  (st != "") && decide (st ∈ LEAD_STATUSES)

/-- Whether the `status` field of a patch will be applied. -/
def statusFieldOk (d : LeadPatch) : Bool :=
  match d.status with
  | some st => validStatus st
  | none => false

/-- The condition `typeof score === 'number' && score >= 0 && score <= 100`. -/
def scoreFieldOk (d : LeadPatch) : Bool :=
  match d.score with
  | some n => decide (0 ≤ n ∧ n ≤ 100)
  | none => false

/-- Whether `updateLead` collects at least one SET clause
(`updates.length === 0` is the early-return guard in the source). -/
def anyFieldOk (d : LeadPatch) : Bool :=
  statusFieldOk d || d.notes.isSome || scoreFieldOk d || d.tags.isSome

/-- The combined effect of the SET clauses `updateLead` builds: each field is
validated independently, invalid fields are skipped, and `updated_at = NOW()`
is always appended once some field applies. -/
def applyPatch (now : Nat) (d : LeadPatch) (l : Lead) : Lead :=
  { l with
    status := match d.status with
      | some st => if validStatus st then st else l.status
      | none => l.status
    notes := match d.notes with
      | some nt => some nt
      | none => l.notes
    score := match d.score with
      | some n => if 0 ≤ n ∧ n ≤ 100 then n else l.score
      | none => l.score
    tags := match d.tags with
      | some ts => ts
      | none => l.tags
    updated_at := now }

/-- Lookup of the bare `leads` row by primary key (the row the SQL
`UPDATE leads ... WHERE id = $i` targets). -/
def findLead (s : Store) (leadId : Nat) : Option Lead :=
  s.leads.find? (fun l => l.id == leadId)

/-- The read `getLeadById`: an inner join of the lead with its practice, so
the lead is returned only when its practice row exists.  The attached
practice object is dropped here; no claim inspects it on this read. -/
def getLeadById (s : Store) (leadId : Nat) : Option Lead :=
  (findLead s leadId).bind fun l =>
    if s.practices.any (fun p => p.id == l.practice_id) then some l else none

/-- The `addActivity` insert: appends one `activities` row with a fresh
serial id. -/
def addActivity (leadId : Nat) (kind title body : String) (s : Store) : Store :=
  { s with
    activities := s.activities ++
      [{ id := s.nextActivityId, lead_id := leadId, kind := kind,
         title := title, body := body }]
    nextActivityId := s.nextActivityId + 1 }

/-- The `updateLead` operation of `lib/db.js`: if no supplied field passes its
validation, return the current lead without touching the store; otherwise
update the matching row by applying every valid field plus `updated_at`, and
return the freshly read lead. -/
def updateLead (now : Nat) (leadId : Nat) (d : LeadPatch) (s : Store) :
    Store × Option Lead :=
  if anyFieldOk d then
    let s2 : Store :=
      { s with leads := s.leads.map fun l =>
          if l.id == leadId then applyPatch now d l else l }
    (s2, getLeadById s2 leadId)
  else (s, getLeadById s leadId)

/-- The activity title template of the PATCH handler.  The source file's
literal is the mojibake sequence U+00E2 U+2020 U+2019 (a UTF-8 arrow
double-encoded), written here with escapes. -/
def statusTitle (st : String) : String :=
  "Status \u00e2\u2020\u2019 " ++ st

/-- The PATCH `/api/leads/:id` handler: 404 (`none`) when the lead is absent;
otherwise, when the supplied status is truthy and in the enum, first insert a
`status_change` activity, then run `updateLead`. -/
def patchLead (now : Nat) (leadId : Nat) (d : LeadPatch) (s : Store) :
    Option (Store × Option Lead) :=
  match getLeadById s leadId with
  | none => none
  | some _ =>
    let s1 : Store :=
      match d.status with
      | some st =>
        if validStatus st then addActivity leadId "status_change" (statusTitle st) "" s
        else s
      | none => s
    some (updateLead now leadId d s1)

/-- The SQL filter `p.email IS NOT NULL AND p.email != ''`. -/
def emailNonEmpty (e : Option String) : Bool :=
  match e with
  | some x => x != ""
  | none => false

/-- Comparison by lead id, the `ORDER BY l.id` key of `listLeadsForN8n`. -/
def rowLe (a b : Lead × Practice) : Prop :=
  a.1.id ≤ b.1.id

instance : DecidableRel rowLe :=
  fun a b => inferInstanceAs (Decidable (a.1.id ≤ b.1.id))

instance : IsTotal (Lead × Practice) rowLe :=
  ⟨fun a b => Nat.le_total a.1.id b.1.id⟩

instance : IsTrans (Lead × Practice) rowLe :=
  ⟨fun _ _ _ hab hbc => Nat.le_trans hab hbc⟩

/-- The inner join `leads l JOIN practices p ON p.id = l.practice_id`,
row by row. -/
def joinPractice (s : Store) (l : Lead) : Option (Lead × Practice) :=
  (s.practices.find? (fun p => p.id == l.practice_id)).map fun p => (l, p)

/-- The WHERE clauses of `listLeadsForN8n`: the optional status equality and
the non-empty-email condition. -/
def rowFilter (status : Option String) (withEmailOnly : Bool)
    (r : Lead × Practice) : Bool :=
  (match status with
   | some st => r.1.status == st
   | none => true) &&
  (if withEmailOnly then emailNonEmpty r.2.email else true)

/-- The practice sub-object of one automation-feed item. -/
structure N8nPractice where
  id : Nat
  name : String
  email : String
  contact : String
  website : String
  address : String
deriving DecidableEq

/-- One item of the automation feed returned by `listLeadsForN8n`. -/
structure N8nItem where
  lead_id : Nat
  practice_id : Nat
  status : String
  outreach_stage : StageValue
  practice : Option N8nPractice
deriving DecidableEq

/-- The row-mapping closure of `listLeadsForN8n` (`r.rows.map(...)`): resolve
the outreach stage and project the practice contact fields, with `null` for a
falsy practice id. -/
def toN8nItem (r : Lead × Practice) : N8nItem :=
  { lead_id := r.1.id
    practice_id := r.2.id
    status := r.1.status
    outreach_stage := outreachStage r.1.status
    practice :=
      if r.2.id ≠ 0 then
        some { id := r.2.id, name := r.2.name, email := r.2.email.getD ""
               contact := r.2.contact.getD "", website := r.2.website.getD ""
               address := r.2.address.getD "" }
      else none }

/-- The `listLeadsForN8n` query: join, filter, `ORDER BY l.id`, `LIMIT`, and
map each row to a feed item.  A `status` argument that is JS-falsy (null or
the empty string) is modelled as `none`. -/
def listLeadsForN8n (limit : Nat) (status : Option String) (withEmailOnly : Bool)
    (s : Store) : List N8nItem :=
  let rows := (s.leads.filterMap (joinPractice s)).filter (rowFilter status withEmailOnly)
  ((List.insertionSort rowLe rows).take limit).map toN8nItem

/-- The limit computation of the GET `/api/n8n/leads` handler:
`Math.min(500, Math.max(1, parseInt(req.query.limit, 10) || 200))`.
The `parseInt` result is modelled as `Option Int`, `none` for `NaN`
(absent or non-numeric input); `0 || 200` is `200` since `0` is falsy. -/
def n8nLimit (parsed : Option Int) : Nat :=
  (min 500 (max 1 (match parsed with
    | some n => if n == 0 then (200 : Int) else n
    | none => 200))).toNat

/-- The JS `String.prototype.trim`: strip leading and trailing whitespace,
written as structural recursion over the character list (the exact JS
whitespace set is approximated by `Char.isWhitespace`; every claim only ever
trims plain ASCII status words). -/
def jsTrim (s : String) : String :=
  String.mk ((((s.data.dropWhile Char.isWhitespace).reverse).dropWhile
    Char.isWhitespace).reverse)

/-- The GET `/api/n8n/leads` handler: trim the status parameter (falsy result
becomes no filter), clamp the limit, and call `listLeadsForN8n` with
`withEmailOnly = true`. -/
def getN8nLeads (limitParam : Option Int) (statusParam : String) (s : Store) :
    List N8nItem :=
  let status := if jsTrim statusParam == "" then none else some (jsTrim statusParam)
  listLeadsForN8n (n8nLimit limitParam) status true s

/-- A scraped practice record handed to `upsertPractice`.  The `url` key is
required (the populate script skips records without it); every other field
may be absent, and a supplied empty string is JS-falsy, which the source's
`||` defaulting turns into the default. -/
structure PracticeRecord where
  url : String
  name : Option String
  website : Option String
  socials : Option (List String)
  email : Option String
  address : Option String
  contact : Option String
  description : Option String
  years_active : Option String
  staff : Option String
  awards : Option (List String)
  source : Option String
deriving DecidableEq

/-- JS `record.f || d` for a string field: absent or empty gives the
default. -/
def orDefault (v : Option String) (d : String) : String :=
  match v with
  | some x => if x == "" then d else x
  | none => d

/-- JS `record.f || null` for a nullable string column: absent or empty
gives SQL NULL. -/
def orNull (v : Option String) : Option String :=
  match v with
  | some x => if x == "" then none else some x
  | none => none

/-- The column values the `upsertPractice` INSERT supplies (identically used
by the `ON CONFLICT (url) DO UPDATE SET` clause, which overwrites every
descriptive field and `updated_at` but leaves `id` and `url` alone). -/
def applyRecord (now : Nat) (r : PracticeRecord) (p : Practice) : Practice :=
  { p with
    name := orDefault r.name ""
    website := orNull r.website
    socials := r.socials.getD []
    email := orNull r.email
    address := orNull r.address
    contact := orNull r.contact
    description := orNull r.description
    years_active := orNull r.years_active
    staff := orNull r.staff
    awards := r.awards.getD []
    source := orDefault r.source "architect_directory"
    updated_at := now }

/-- The `upsertPractice` operation: INSERT with `ON CONFLICT (url) DO UPDATE`,
returning the row id.  The conflict target is the unique `url` index, so the
update rewrites the (unique) row carrying that url. -/
def upsertPractice (now : Nat) (r : PracticeRecord) (s : Store) : Nat × Store :=
  match s.practices.find? (fun p => p.url == r.url) with
  | some p =>
    (p.id,
     { s with practices := s.practices.map fun q =>
         if q.url == r.url then applyRecord now r q else q })
  | none =>
    let base : Practice :=
      { id := s.nextPracticeId, url := r.url, name := "", website := none
        socials := [], email := none, address := none, contact := none
        description := none, years_active := none, staff := none, awards := []
        source := "architect_directory", updated_at := now }
    (s.nextPracticeId,
     { s with practices := s.practices ++ [applyRecord now r base]
              nextPracticeId := s.nextPracticeId + 1 })

/-- The lead row inserted by `ensureLead`: status `new` and the column
defaults (`score 0`, null notes, empty tags). -/
def newLeadRow (now practiceId lid : Nat) : Lead :=
  { id := lid, practice_id := practiceId, status := "new",
    score := 0, notes := none, tags := [], updated_at := now }

/-- The `ensureLead` operation: return the existing lead id for the practice
if one exists, else insert a fresh `newLeadRow`. -/
def ensureLead (now : Nat) (practiceId : Nat) (s : Store) : Nat × Store :=
  match s.leads.find? (fun l => l.practice_id == practiceId) with
  | some l => (l.id, s)
  | none =>
    (s.nextLeadId,
     { s with leads := s.leads ++ [newLeadRow now practiceId s.nextLeadId],
              nextLeadId := s.nextLeadId + 1 })

/-- One ingestion step of the populate script: `upsertPractice` followed by
`ensureLead` on the returned practice id. -/
def ingest (now : Nat) (r : PracticeRecord) (s : Store) : Nat × Nat × Store :=
  let u := upsertPractice now r s
  let e := ensureLead now u.1 u.2
  (u.1, e.1, e.2)

/-- A one-practice, one-lead store used to instantiate the theorems below on
concrete data. -/
def demoPractice : Practice :=
  { id := 1, url := "a.example/1", name := "Acme Arch", website := none
    socials := [], email := some "x@a.example", address := none, contact := none
    description := none, years_active := none, staff := none, awards := []
    source := "architect_directory", updated_at := 0 }

/-- The demo lead attached to `demoPractice`. -/
def demoLead : Lead :=
  { id := 1, practice_id := 1, status := "new", score := 0, notes := none
    tags := [], updated_at := 0 }

/-- The demo store holding `demoPractice` and `demoLead`. -/
def demoStore : Store :=
  { practices := [demoPractice], leads := [demoLead], activities := []
    nextPracticeId := 2, nextLeadId := 2, nextActivityId := 1 }

end Blocharch

namespace Blocharch

/-- Applying a patch never changes a lead primary key. -/
theorem applyPatch_id (now : Nat) (d : LeadPatch) (l : Lead) :
    (applyPatch now d l).id = l.id := rfl

/-- Applying a patch never changes the practice reference. -/
theorem applyPatch_practice_id (now : Nat) (d : LeadPatch) (l : Lead) :
    (applyPatch now d l).practice_id = l.practice_id := rfl

/-- Updating a lead writes only the `leads` table. -/
theorem updateLead_activities (now leadId : Nat) (d : LeadPatch) (s : Store) :
    (updateLead now leadId d s).1.activities = s.activities := by
  unfold updateLead
  split <;> rfl

/-- Updating a lead leaves the `practices` table alone. -/
theorem updateLead_practices (now leadId : Nat) (d : LeadPatch) (s : Store) :
    (updateLead now leadId d s).1.practices = s.practices := by
  unfold updateLead
  split <;> rfl

/-- Updating a lead leaves the activity id counter alone. -/
theorem updateLead_nextActivityId (now leadId : Nat) (d : LeadPatch) (s : Store) :
    (updateLead now leadId d s).1.nextActivityId = s.nextActivityId := by
  unfold updateLead
  split <;> rfl

/-- Inserting an activity reads and writes nothing of the `leads` table, so
lead lookup is unaffected. -/
theorem findLead_addActivity (leadId : Nat) (k t b : String) (aid : Nat) (s : Store) :
    findLead (addActivity aid k t b s) leadId = findLead s leadId := rfl

/-- Inserting an activity does not affect the joined lead read either. -/
theorem getLeadById_addActivity (leadId : Nat) (k t b : String) (aid : Nat) (s : Store) :
    getLeadById (addActivity aid k t b s) leadId = getLeadById s leadId := rfl

/-- Unfolding a successful joined read: the lead row is present and its
practice row exists. -/
theorem getLeadById_eq_some {s : Store} {leadId : Nat} {l : Lead}
    (h : getLeadById s leadId = some l) :
    findLead s leadId = some l ∧
      s.practices.any (fun p => p.id == l.practice_id) = true := by
  unfold getLeadById at h
  cases hf : findLead s leadId with
  | none => rw [hf] at h; simp at h
  | some l0 =>
    rw [hf, Option.some_bind] at h
    by_cases hp : s.practices.any (fun p => p.id == l0.practice_id) = true
    · rw [if_pos hp] at h
      have he : l0 = l := Option.some.inj h
      subst he
      exact ⟨by simp [hf], hp⟩
    · rw [if_neg hp] at h
      cases h

/-- Effect of `updateLead` on the targeted row: when the row exists it is
rewritten by `applyPatch` exactly when some field applies. -/
theorem findLead_updateLead (now leadId : Nat) (d : LeadPatch) (s : Store) (l : Lead)
    (h : findLead s leadId = some l) :
    findLead (updateLead now leadId d s).1 leadId =
      some (if anyFieldOk d then applyPatch now d l else l) := by
  by_cases ha : anyFieldOk d
  · have hpf : (fun x : Lead =>
        ((fun l => if l.id == leadId then applyPatch now d l else l) x).id == leadId)
        = fun x : Lead => x.id == leadId := by
      funext x
      by_cases hx : x.id == leadId <;> simp [hx, applyPatch_id]
    have h0 : s.leads.find? (fun x => x.id == leadId) = some l := h
    have hbeq : (l.id == leadId) = true := by
      have hq := List.find?_some h0
      simpa using hq
    unfold updateLead
    simp only [ha, if_true]
    show (s.leads.map fun l => if l.id == leadId then applyPatch now d l else l).find?
        (fun l => l.id == leadId) = some (applyPatch now d l)
    rw [List.find?_map]
    show ((s.leads.find? fun x =>
        ((fun l => if l.id == leadId then applyPatch now d l else l) x).id == leadId).map
          fun l => if l.id == leadId then applyPatch now d l else l) = some (applyPatch now d l)
    have hid : l.id = leadId := by simpa using hbeq
    rw [hpf]
    unfold findLead at h
    rw [h]
    simp [hid]
  · unfold updateLead
    simp only [ha, if_false]
    simpa [ha] using h

/-- Joined-read version of the previous lemma: the practice row survives the
update, so the read still succeeds. -/
theorem getLeadById_updateLead (now leadId : Nat) (d : LeadPatch) (s : Store) (l : Lead)
    (h : getLeadById s leadId = some l) :
    getLeadById (updateLead now leadId d s).1 leadId =
      some (if anyFieldOk d then applyPatch now d l else l) := by
  obtain ⟨hf, hp⟩ := getLeadById_eq_some h
  have hpid : (if anyFieldOk d then applyPatch now d l else l).practice_id
      = l.practice_id := by
    by_cases ha : anyFieldOk d <;> simp [ha, applyPatch_practice_id]
  unfold getLeadById
  rw [findLead_updateLead now leadId d s l hf, updateLead_practices,
    Option.some_bind, hpid, if_pos hp]

/-- Every member of the status enum passes the truthiness-and-membership
check of the source. -/
theorem validStatus_of_mem {st : String} (h : st ∈ LEAD_STATUSES) :
    validStatus st = true := by
  have hne : st ≠ "" := by
    simp only [LEAD_STATUSES, List.mem_cons, List.not_mem_nil, or_false] at h
    rcases h with rfl | rfl | rfl | rfl | rfl | rfl | rfl <;> decide
  simp [validStatus, h, hne]

/-- The activity row the PATCH handler inserts on a valid status change. -/
def statusChangeRow (s : Store) (leadId : Nat) (st : String) : Activity :=
  { id := s.nextActivityId, lead_id := leadId, kind := "status_change",
    title := statusTitle st, body := "" }

/-- Count of `status_change` activities in the store. -/
def countStatusChanges (s : Store) : Nat :=
  s.activities.countP (fun a => a.kind == "status_change")

/-- Updating a lead adds no activity of any kind. -/
theorem countStatusChanges_updateLead (now leadId : Nat) (d : LeadPatch) (s : Store) :
    countStatusChanges (updateLead now leadId d s).1 = countStatusChanges s := by
  unfold countStatusChanges
  rw [updateLead_activities]

/-- Inserting a `status_change` activity raises the count by exactly one. -/
theorem countStatusChanges_addStatusChange (leadId : Nat) (t b : String) (s : Store) :
    countStatusChanges (addActivity leadId "status_change" t b s)
      = countStatusChanges s + 1 := by
  simp [countStatusChanges, addActivity]

/-- C1 counterexample: the claimed universal fallback fails on property
names of `Object.prototype`: the bracket lookup returns the inherited
truthy member, so `toString`, `constructor`, `hasOwnProperty` and
`__proto__` do not resolve to the string `cold`. -/
theorem C1_stage_resolver_counterexample :
    outreachStage "toString" = StageValue.protoMember "toString" ∧
    ¬outreachStage "toString" = StageValue.str "cold" ∧
    ¬outreachStage "constructor" = StageValue.str "cold" ∧
    ¬outreachStage "hasOwnProperty" = StageValue.str "cold" ∧
    ¬outreachStage "__proto__" = StageValue.str "cold" := by
  decide

/-- C1 (amended): the stage resolver is a pure total function returning
exactly the specified string mapping on the seven enum statuses; a string
outside the enum resolves to `cold` unless it is an own property name of
`Object.prototype`, in which case the lookup returns the inherited truthy
member and the `|| 'cold'` fallback is skipped. -/
theorem C1_stage_resolver :
    (outreachStage "new" = StageValue.str "cold" ∧
     outreachStage "contacted" = StageValue.str "no_reply" ∧
     outreachStage "qualified" = StageValue.str "positive_reply" ∧
     outreachStage "proposal" = StageValue.str "positive_reply" ∧
     outreachStage "negotiating" = StageValue.str "positive_reply" ∧
     outreachStage "won" = StageValue.str "positive_reply" ∧
     outreachStage "lost" = StageValue.str "negative_reply") ∧
    (∀ st : String, st ∉ LEAD_STATUSES → st ∉ objectProtoKeys →
      outreachStage st = StageValue.str "cold") ∧
    (∀ st : String, st ∈ objectProtoKeys →
      outreachStage st = StageValue.protoMember st) := by
  refine ⟨by decide, ?_, ?_⟩
  · intro st h1 h2
    simp only [LEAD_STATUSES, List.mem_cons, List.not_mem_nil, or_false] at h1
    push_neg at h1
    obtain ⟨e1, e2, e3, e4, e5, e6, e7⟩ := h1
    simp only [objectProtoKeys, List.mem_cons, List.not_mem_nil, or_false] at h2
    push_neg at h2
    obtain ⟨f1, f2, f3, f4, f5, f6, f7, f8, f9, f10, f11, f12⟩ := h2
    simp [outreachStage, stageMap, objectProtoKeys, e1, e2, e3, e4, e5, e6, e7,
      f1, f2, f3, f4, f5, f6, f7, f8, f9, f10, f11, f12]
  · intro st h
    simp only [objectProtoKeys, List.mem_cons, List.not_mem_nil, or_false] at h
    rcases h with rfl | rfl | rfl | rfl | rfl | rfl | rfl | rfl | rfl | rfl |
      rfl | rfl <;> decide

/-- C1 witness: a concrete string outside both the enum and the prototype
property names resolves to `cold`, and a concrete prototype property name
yields the inherited member. -/
theorem C1_stage_resolver_witness :
    outreachStage "weird" = StageValue.str "cold" ∧
    outreachStage "valueOf" = StageValue.protoMember "valueOf" :=
  ⟨C1_stage_resolver.2.1 "weird" (by decide) (by decide),
   C1_stage_resolver.2.2 "valueOf" (by decide)⟩

/-- C9: when every supplied field of an update is absent or invalid (status
outside the enum, score out of range, no notes, no tags), `updateLead`
performs no write at all: the store — hence the lead row and its
`updated_at` — is returned unchanged, together with the current lead. -/
theorem C9_no_applicable_field_no_write (now leadId : Nat) (d : LeadPatch) (s : Store)
    (hst : ∀ st, d.status = some st → st ∉ LEAD_STATUSES)
    (hnt : d.notes = none)
    (hsc : ∀ n : Int, d.score = some n → n < 0 ∨ 100 < n)
    (htg : d.tags = none) :
    updateLead now leadId d s = (s, getLeadById s leadId) := by
  have hstF : statusFieldOk d = false := by
    unfold statusFieldOk
    cases hd : d.status with
    | none => rfl
    | some st =>
      have hmem := hst st hd
      simp [validStatus, hmem]
  have hscF : scoreFieldOk d = false := by
    unfold scoreFieldOk
    cases hd : d.score with
    | none => rfl
    | some n =>
      have hrange := hsc n hd
      have : ¬(0 ≤ n ∧ n ≤ 100) := by omega
      simp [this]
  have hall : anyFieldOk d = false := by
    simp [anyFieldOk, hstF, hscF, hnt, htg]
  unfold updateLead
  rw [hall]
  rfl

/-- A patch whose every field is absent or invalid, for instantiating C9. -/
def demoPatchInvalid : LeadPatch :=
  { status := some "bogus", notes := none, score := some 150, tags := none }

/-- A patch supplying only an out-of-range score, for instantiating C4. -/
def demoPatchScore101 : LeadPatch :=
  { status := none, notes := none, score := some 101, tags := none }

/-- A patch supplying only the boundary score 100, for instantiating C4. -/
def demoPatchScore100 : LeadPatch :=
  { status := none, notes := none, score := some 100, tags := none }

/-- C9 witness: a patch carrying only an out-of-enum status and an
out-of-range score leaves the demo store untouched. -/
theorem C9_no_applicable_field_no_write_witness :
    updateLead 9 1 demoPatchInvalid demoStore
      = (demoStore, getLeadById demoStore 1) :=
  C9_no_applicable_field_no_write 9 1 demoPatchInvalid demoStore
    (fun st h => by
      have hst : st = "bogus" := (Option.some.inj h).symm
      subst hst
      decide)
    rfl
    (fun n h => by
      have hn : n = 150 := (Option.some.inj h).symm
      subst hn
      decide)
    rfl

/-- C4: score validation in `updateLead` — an out-of-range numeric score is
dropped (the stored score is unchanged), while the boundary scores 0 and 100
are accepted and stored. -/
theorem C4_score_validation (now leadId : Nat) (d : LeadPatch) (s : Store) (l : Lead)
    (hl : findLead s leadId = some l) :
    (∀ n : Int, d.score = some n → (n < 0 ∨ 100 < n) →
        (findLead (updateLead now leadId d s).1 leadId).map Lead.score = some l.score) ∧
    (d.score = some 0 →
        (findLead (updateLead now leadId d s).1 leadId).map Lead.score = some 0) ∧
    (d.score = some 100 →
        (findLead (updateLead now leadId d s).1 leadId).map Lead.score = some 100) := by
  have hfu := findLead_updateLead now leadId d s l hl
  refine ⟨?_, ?_, ?_⟩
  · intro n hn hrange
    rw [hfu]
    have : ¬(0 ≤ n ∧ n ≤ 100) := by omega
    by_cases ha : anyFieldOk d <;>
      simp [ha, applyPatch, hn, this]
  · intro h0
    have ha : anyFieldOk d = true := by
      simp [anyFieldOk, scoreFieldOk, h0]
    rw [hfu]
    simp [ha, applyPatch, h0]
  · intro h100
    have ha : anyFieldOk d = true := by
      simp [anyFieldOk, scoreFieldOk, h100]
    rw [hfu]
    simp [ha, applyPatch, h100]

/-- C4 witness: score 101 is dropped on the demo lead (score stays 0), and a
patch of exactly 100 is stored. -/
theorem C4_score_validation_witness :
    (findLead (updateLead 9 1 demoPatchScore101 demoStore).1 1).map Lead.score
      = some demoLead.score ∧
    (findLead (updateLead 9 1 demoPatchScore100 demoStore).1 1).map Lead.score
      = some 100 :=
  ⟨(C4_score_validation 9 1 demoPatchScore101 demoStore demoLead (by decide)).1
      101 rfl (by decide),
   (C4_score_validation 9 1 demoPatchScore100 demoStore demoLead (by decide)).2.2 rfl⟩

/-- C3: a PATCH supplying a status outside the enum inserts no
`status_change` activity (the handler skips the insert, and `updateLead`
touches no activities), leaves the stored status unchanged, and still
applies any supplied notes. -/
theorem C3_invalid_status_ignored (now leadId : Nat) (d : LeadPatch) (s : Store)
    (l : Lead) (st : String) (hl : getLeadById s leadId = some l)
    (hst : d.status = some st) (hbad : st ∉ LEAD_STATUSES) :
    patchLead now leadId d s = some (updateLead now leadId d s) ∧
    (updateLead now leadId d s).1.activities = s.activities ∧
    (findLead (updateLead now leadId d s).1 leadId).map Lead.status = some l.status ∧
    ∀ nt : String, d.notes = some nt →
      (findLead (updateLead now leadId d s).1 leadId).map Lead.notes
        = some (some nt) := by
  have hv : validStatus st = false := by simp [validStatus, hbad]
  obtain ⟨hf, -⟩ := getLeadById_eq_some hl
  have hfu := findLead_updateLead now leadId d s l hf
  refine ⟨?_, updateLead_activities now leadId d s, ?_, ?_⟩
  · simp [patchLead, hl, hst, hv]
  · rw [hfu]
    by_cases ha : anyFieldOk d <;> simp [ha, applyPatch, hst, hv]
  · intro nt hnt
    have ha : anyFieldOk d = true := by simp [anyFieldOk, hnt]
    rw [hfu]
    simp [ha, applyPatch, hnt]

/-- A patch carrying an out-of-enum status together with notes, for
instantiating C3. -/
def demoPatchBadStatus : LeadPatch :=
  { status := some "bogus", notes := some "followed up", score := none, tags := none }

/-- C3 witness: on the demo store the bogus status is ignored, no activity
appears, and the notes are stored. -/
theorem C3_invalid_status_ignored_witness :
    patchLead 9 1 demoPatchBadStatus demoStore
        = some (updateLead 9 1 demoPatchBadStatus demoStore) ∧
    (updateLead 9 1 demoPatchBadStatus demoStore).1.activities = demoStore.activities ∧
    (findLead (updateLead 9 1 demoPatchBadStatus demoStore).1 1).map Lead.status
        = some demoLead.status ∧
    (findLead (updateLead 9 1 demoPatchBadStatus demoStore).1 1).map Lead.notes
        = some (some "followed up") :=
  have h := C3_invalid_status_ignored 9 1 demoPatchBadStatus demoStore demoLead
    "bogus" (by decide) rfl (by decide)
  ⟨h.1, h.2.1, h.2.2.1, h.2.2.2 "followed up" rfl⟩

/-- C2: a PATCH supplying an enum status appends exactly one new
`status_change` activity whose title embeds the new status, and the handler
factors as activity-insert first, then status write: in the intermediate
store the activity exists while the lead still carries its old status, and
only the final store carries the new one. -/
theorem C2_status_change_logged (now leadId : Nat) (d : LeadPatch) (s : Store)
    (l : Lead) (st : String) (hl : getLeadById s leadId = some l)
    (hst : d.status = some st) (henum : st ∈ LEAD_STATUSES) :
    patchLead now leadId d s
        = some (updateLead now leadId d
            (addActivity leadId "status_change" (statusTitle st) "" s)) ∧
    (updateLead now leadId d
        (addActivity leadId "status_change" (statusTitle st) "" s)).1.activities
        = s.activities ++ [statusChangeRow s leadId st] ∧
    (statusChangeRow s leadId st).kind = "status_change" ∧
    (statusChangeRow s leadId st).title = "Status \u00e2\u2020\u2019 " ++ st ∧
    (findLead (addActivity leadId "status_change" (statusTitle st) "" s) leadId).map
        Lead.status = some l.status ∧
    (findLead (updateLead now leadId d
        (addActivity leadId "status_change" (statusTitle st) "" s)).1 leadId).map
        Lead.status = some st := by
  have hv : validStatus st = true := validStatus_of_mem henum
  obtain ⟨hf, -⟩ := getLeadById_eq_some hl
  refine ⟨?_, ?_, rfl, rfl, ?_, ?_⟩
  · simp [patchLead, hl, hst, hv]
  · rw [updateLead_activities]
    rfl
  · rw [findLead_addActivity, hf]
    rfl
  · have hfa : findLead (addActivity leadId "status_change" (statusTitle st) "" s)
        leadId = some l := by rw [findLead_addActivity, hf]
    have ha : anyFieldOk d = true := by simp [anyFieldOk, statusFieldOk, hst, hv]
    rw [findLead_updateLead now leadId d _ l hfa]
    simp [ha, applyPatch, hst, hv]

/-- A patch moving the demo lead to `lost`, for instantiating C2. -/
def demoPatchLost : LeadPatch :=
  { status := some "lost", notes := none, score := none, tags := none }

/-- C2 witness: patching the demo lead to `lost` appends exactly the one
status-change row, whose title embeds `lost`, with the old status still
stored in the intermediate state. -/
theorem C2_status_change_logged_witness :
    patchLead 7 1 demoPatchLost demoStore
        = some (updateLead 7 1 demoPatchLost
            (addActivity 1 "status_change" (statusTitle "lost") "" demoStore)) ∧
    (updateLead 7 1 demoPatchLost
        (addActivity 1 "status_change" (statusTitle "lost") "" demoStore)).1.activities
        = demoStore.activities ++ [statusChangeRow demoStore 1 "lost"] ∧
    (statusChangeRow demoStore 1 "lost").kind = "status_change" ∧
    (statusChangeRow demoStore 1 "lost").title = "Status \u00e2\u2020\u2019 " ++ "lost" ∧
    (findLead (addActivity 1 "status_change" (statusTitle "lost") "" demoStore) 1).map
        Lead.status = some demoLead.status ∧
    (findLead (updateLead 7 1 demoPatchLost
        (addActivity 1 "status_change" (statusTitle "lost") "" demoStore)).1 1).map
        Lead.status = some "lost" :=
  C2_status_change_logged 7 1 demoPatchLost demoStore demoLead "lost"
    (by decide) rfl (by decide)

/-- C10: a PATCH whose enum status equals the current stored status still
appends a `status_change` activity, and a second identical PATCH appends yet
another one — no deduplication against the current status. -/
theorem C10_repeat_status_appends (n1 n2 leadId : Nat) (d : LeadPatch) (s : Store)
    (l : Lead) (st : String) (hl : getLeadById s leadId = some l)
    (hcur : l.status = st) (hst : d.status = some st) (henum : st ∈ LEAD_STATUSES) :
    (patchLead n1 leadId d s).map (fun res => countStatusChanges res.1)
        = some (countStatusChanges s + 1) ∧
    (patchLead n1 leadId d s).bind (fun res =>
        (patchLead n2 leadId d res.1).map (fun res2 => countStatusChanges res2.1))
        = some (countStatusChanges s + 2) := by
  have hv : validStatus st = true := validStatus_of_mem henum
  have ha : anyFieldOk d = true := by simp [anyFieldOk, statusFieldOk, hst, hv]
  have hstep1 : patchLead n1 leadId d s
      = some (updateLead n1 leadId d
          (addActivity leadId "status_change" (statusTitle st) "" s)) := by
    simp [patchLead, hl, hst, hv]
  have hl1 : getLeadById (addActivity leadId "status_change" (statusTitle st) "" s)
      leadId = some l := by rw [getLeadById_addActivity]; exact hl
  have hl2 : getLeadById (updateLead n1 leadId d
      (addActivity leadId "status_change" (statusTitle st) "" s)).1 leadId
      = some (applyPatch n1 d l) := by
    rw [getLeadById_updateLead n1 leadId d _ l hl1, if_pos ha]
  have hstep2 : patchLead n2 leadId d (updateLead n1 leadId d
      (addActivity leadId "status_change" (statusTitle st) "" s)).1
      = some (updateLead n2 leadId d
          (addActivity leadId "status_change" (statusTitle st) ""
            (updateLead n1 leadId d
              (addActivity leadId "status_change" (statusTitle st) "" s)).1)) := by
    simp [patchLead, hl2, hst, hv]
  constructor
  · rw [hstep1]
    simp only [Option.map_some']
    rw [countStatusChanges_updateLead, countStatusChanges_addStatusChange]
  · rw [hstep1]
    simp only [Option.some_bind]
    rw [hstep2]
    simp only [Option.map_some']
    rw [countStatusChanges_updateLead, countStatusChanges_addStatusChange,
      countStatusChanges_updateLead, countStatusChanges_addStatusChange]

/-- A patch re-submitting the current status of the demo lead, for
instantiating C10. -/
def demoPatchSameStatus : LeadPatch :=
  { status := some "new", notes := none, score := none, tags := none }

/-- C10 witness: re-submitting the current status `new` twice on the demo
store appends one activity each time. -/
theorem C10_repeat_status_appends_witness :
    (patchLead 7 1 demoPatchSameStatus demoStore).map
        (fun res => countStatusChanges res.1)
        = some (countStatusChanges demoStore + 1) ∧
    (patchLead 7 1 demoPatchSameStatus demoStore).bind (fun res =>
        (patchLead 8 1 demoPatchSameStatus res.1).map
          (fun res2 => countStatusChanges res2.1))
        = some (countStatusChanges demoStore + 2) :=
  C10_repeat_status_appends 7 8 1 demoPatchSameStatus demoStore demoLead "new"
    (by decide) rfl rfl (by decide)

/-- Any item of the automation feed with the email filter on comes from a
practice row whose email passes the non-null, non-empty SQL filter. -/
theorem mem_listLeadsForN8n_email (limit : Nat) (status : Option String) (s : Store)
    (item : N8nItem) (h : item ∈ listLeadsForN8n limit status true s) :
    s.practices.any (fun p => p.id == item.practice_id && emailNonEmpty p.email)
      = true := by
  unfold listLeadsForN8n at h
  obtain ⟨row, hrow, hitem⟩ := List.mem_map.mp h
  have hsorted : row ∈ List.insertionSort rowLe
      ((s.leads.filterMap (joinPractice s)).filter (rowFilter status true)) :=
    List.mem_of_mem_take hrow
  have hfilter : row ∈ (s.leads.filterMap (joinPractice s)).filter
      (rowFilter status true) :=
    (List.perm_insertionSort rowLe _).mem_iff.mp hsorted
  obtain ⟨hmem, hflt⟩ := List.mem_filter.mp hfilter
  have hemail : emailNonEmpty row.2.email = true := by
    have hb := hflt
    unfold rowFilter at hb
    simp only [if_true, Bool.and_eq_true] at hb
    exact hb.2
  obtain ⟨l, -, hjoin⟩ := List.mem_filterMap.mp hmem
  unfold joinPractice at hjoin
  cases hfind : s.practices.find? (fun p => p.id == l.practice_id) with
  | none => rw [hfind] at hjoin; cases hjoin
  | some p =>
    rw [hfind] at hjoin
    have hrp : (l, p) = row := Option.some.inj hjoin
    have hpmem : p ∈ s.practices := List.mem_of_find?_eq_some hfind
    have hpid : item.practice_id = p.id := by
      rw [← hitem, ← hrp]
      rfl
    rw [List.any_eq_true]
    refine ⟨p, hpmem, ?_⟩
    rw [hpid]
    simp only [beq_self_eq_true, Bool.true_and]
    rw [← hrp] at hemail
    exact hemail

/-- C6: every lead returned by GET `/api/n8n/leads` belongs to a practice
whose stored email is non-null and non-empty, for any status filter and any
limit parameter; leads of email-less practices never appear. -/
theorem C6_feed_requires_email (limitParam : Option Int) (statusParam : String)
    (s : Store) (item : N8nItem) (h : item ∈ getN8nLeads limitParam statusParam s) :
    s.practices.any (fun p => p.id == item.practice_id && emailNonEmpty p.email)
      = true :=
  mem_listLeadsForN8n_email (n8nLimit limitParam)
    (if jsTrim statusParam == "" then none else some (jsTrim statusParam)) s item h

/-- The feed item produced for the demo lead, used to instantiate C6. -/
def demoFeedItem : N8nItem :=
  { lead_id := 1, practice_id := 1, status := "new",
    outreach_stage := StageValue.str "cold",
    practice := some { id := 1, name := "Acme Arch", email := "x@a.example",
                       contact := "", website := "", address := "" } }

/-- C6 witness: the demo feed contains the demo item, and its practice
indeed carries a non-empty email. -/
theorem C6_feed_requires_email_witness :
    demoStore.practices.any
        (fun p => p.id == demoFeedItem.practice_id && emailNonEmpty p.email)
      = true :=
  C6_feed_requires_email (some 10) "" demoStore demoFeedItem (by decide)

/-- C8: the automation feed lists its items in ascending order of lead id
(the `ORDER BY l.id` of `listLeadsForN8n`), for every limit, status filter,
email flag and store — so two polls of an unchanged store, a pure function
of it, return the same sequence. -/
theorem C8_feed_sorted_by_lead_id (limit : Nat) (status : Option String)
    (withEmailOnly : Bool) (s : Store) :
    (listLeadsForN8n limit status withEmailOnly s).Pairwise
      (fun a b => a.lead_id ≤ b.lead_id) := by
  unfold listLeadsForN8n
  have hs : ((s.leads.filterMap (joinPractice s)).filter
      (rowFilter status withEmailOnly)).insertionSort rowLe |>.Pairwise rowLe :=
    List.sorted_insertionSort rowLe _
  have ht : (((s.leads.filterMap (joinPractice s)).filter
      (rowFilter status withEmailOnly)).insertionSort rowLe |>.take limit).Pairwise
      rowLe :=
    List.Pairwise.sublist (List.take_sublist limit _) hs
  rw [List.pairwise_map]
  exact ht.imp (fun hab => hab)

/-- C5 counterexample: the claim says an out-of-range limit falls back to the
default 200, but the handler clamps: a parsed limit of 1000 yields 500, not
200 (and a parsed -5 yields 1, not 200). -/
theorem C5_limit_counterexample :
    n8nLimit (some 1000) = 500 ∧ ¬n8nLimit (some 1000) = 200 ∧
    n8nLimit (some (-5)) = 1 ∧ ¬n8nLimit (some (-5)) = 200 := by
  decide

/-- C5 (amended): the limit of GET `/api/n8n/leads` always lands in [1,500];
non-numeric input (and the falsy literal 0) falls back to the default 200;
out-of-range numeric input is clamped to the nearest bound rather than
defaulted; in-range input is taken as is. -/
theorem C5_limit_clamped :
    (∀ parsed : Option Int, 1 ≤ n8nLimit parsed ∧ n8nLimit parsed ≤ 500) ∧
    n8nLimit none = 200 ∧
    n8nLimit (some 0) = 200 ∧
    (∀ n : Int, 500 < n → n8nLimit (some n) = 500) ∧
    (∀ n : Int, n < 1 → n ≠ 0 → n8nLimit (some n) = 1) ∧
    (∀ n : Int, 1 ≤ n → n ≤ 500 → n8nLimit (some n) = n.toNat) := by
  refine ⟨?_, by decide, by decide, ?_, ?_, ?_⟩
  · intro parsed
    cases parsed with
    | none => decide
    | some n =>
      unfold n8nLimit
      by_cases h0 : n == 0
      · simp only [h0, if_true]
        decide
      · simp only [h0, Bool.false_eq_true, if_false]
        rw [Int.min_def, Int.max_def]
        constructor <;> (split <;> split <;> omega)
  · intro n hn
    unfold n8nLimit
    have h0 : (n == 0) = false := by
      simp only [beq_eq_false_iff_ne, ne_eq]
      omega
    simp only [h0, Bool.false_eq_true, if_false]
    rw [Int.min_def, Int.max_def]
    split <;> split <;> omega
  · intro n hn hn0
    unfold n8nLimit
    have h0 : (n == 0) = false := by
      simp only [beq_eq_false_iff_ne, ne_eq]
      omega
    simp only [h0, Bool.false_eq_true, if_false]
    rw [Int.min_def, Int.max_def]
    split <;> split <;> omega
  · intro n h1 h500
    unfold n8nLimit
    have h0 : (n == 0) = false := by
      simp only [beq_eq_false_iff_ne, ne_eq]
      omega
    simp only [h0, Bool.false_eq_true, if_false]
    rw [Int.min_def, Int.max_def]
    split <;> split <;> omega

/-- C5 witness: concrete instances of the amended behavior — 1000 clamps to
the ceiling 500, -5 clamps to the floor 1, and 350 passes through. -/
theorem C5_limit_clamped_witness :
    n8nLimit (some 1000) = 500 ∧ n8nLimit (some (-5)) = 1 ∧
    n8nLimit (some 350) = (350 : Int).toNat :=
  ⟨C5_limit_clamped.2.2.2.1 1000 (by decide),
   C5_limit_clamped.2.2.2.2.1 (-5) (by decide) (by decide),
   C5_limit_clamped.2.2.2.2.2 350 (by decide) (by decide)⟩

/-- Two members of a list whose keys are pairwise distinct and whose keys
agree are the same element. -/
theorem eq_of_pairwise_key {α κ : Type} (k : α → κ) {l : List α}
    (h : l.Pairwise (fun x y => k x ≠ k y)) {a b : α} (ha : a ∈ l) (hb : b ∈ l)
    (hk : k a = k b) : a = b := by
  induction l with
  | nil => cases ha
  | cons x xs ih =>
    rw [List.pairwise_cons] at h
    rcases List.mem_cons.mp ha with rfl | ha2 <;>
      rcases List.mem_cons.mp hb with rfl | hb2
    · rfl
    · exact absurd hk (h.1 b hb2)
    · exact absurd hk.symm (h.1 a ha2)
    · exact ih h.2 ha2 hb2

/-- In a list with pairwise-distinct keys, a member key is counted exactly
once. -/
theorem countP_key_eq_one {α κ : Type} [BEq κ] [LawfulBEq κ] (k : α → κ) (t : κ)
    {l : List α} (h : l.Pairwise (fun x y => k x ≠ k y)) {a : α} (ha : a ∈ l)
    (hat : k a = t) : l.countP (fun x => k x == t) = 1 := by
  induction l with
  | nil => cases ha
  | cons x xs ih =>
    rw [List.pairwise_cons] at h
    rw [List.countP_cons]
    rcases List.mem_cons.mp ha with rfl | ha2
    · have h0 : xs.countP (fun y => k y == t) = 0 := by
        rw [List.countP_eq_zero]
        intro b hb hbt
        exact h.1 b hb (hat.trans (eq_of_beq hbt).symm)
      rw [h0]
      simp [hat]
    · have hx : (k x == t) = false := by
        rw [beq_eq_false_iff_ne]
        intro hxt
        exact h.1 a ha2 (hxt.trans hat.symm)
      rw [ih h.2 ha2, hx]
      rfl

/-- Upserting a practice never touches the `leads` table. -/
theorem upsertPractice_leads (now : Nat) (r : PracticeRecord) (s : Store) :
    (upsertPractice now r s).2.leads = s.leads := by
  unfold upsertPractice
  cases s.practices.find? (fun p => p.url == r.url) <;> rfl

/-- Upserting a practice never touches the lead id counter. -/
theorem upsertPractice_nextLeadId (now : Nat) (r : PracticeRecord) (s : Store) :
    (upsertPractice now r s).2.nextLeadId = s.nextLeadId := by
  unfold upsertPractice
  cases s.practices.find? (fun p => p.url == r.url) <;> rfl

/-- The ON CONFLICT update rewrites descriptive fields, never the url. -/
theorem applyRecord_url (now : Nat) (r : PracticeRecord) (p : Practice) :
    (applyRecord now r p).url = p.url := rfl

/-- The ON CONFLICT update rewrites descriptive fields, never the id. -/
theorem applyRecord_id (now : Nat) (r : PracticeRecord) (p : Practice) :
    (applyRecord now r p).id = p.id := rfl

/-- The per-row effect of the conflict branch of `upsertPractice` keeps every
url unchanged. -/
theorem upsertMap_url (now : Nat) (r : PracticeRecord) (q : Practice) :
    (if q.url == r.url then applyRecord now r q else q).url = q.url := by
  by_cases h : (q.url == r.url) = true <;> simp [h, applyRecord_url]

/-- After `upsertPractice` some practice row carries the record url, and its
id is the returned id. -/
theorem upsertPractice_mem_url (now : Nat) (r : PracticeRecord) (s : Store) :
    ∃ p ∈ (upsertPractice now r s).2.practices,
      p.id = (upsertPractice now r s).1 ∧ p.url = r.url := by
  unfold upsertPractice
  cases hf : s.practices.find? (fun p => p.url == r.url) with
  | none =>
    refine ⟨_, List.mem_append_right _ (List.mem_singleton.mpr rfl), rfl, rfl⟩
  | some p =>
    have hmem := List.mem_of_find?_eq_some hf
    have hb := List.find?_some hf
    have hurl : p.url = r.url := by simpa using hb
    refine ⟨applyRecord now r p, ?_, applyRecord_id now r p, ?_⟩
    · exact List.mem_map.mpr ⟨p, hmem, by simp [hurl]⟩
    · rw [applyRecord_url, hurl]

/-- With pairwise-distinct urls, `upsertPractice` leaves exactly one row
carrying the record url. -/
theorem upsertPractice_countP (now : Nat) (r : PracticeRecord) (s : Store)
    (h : s.practices.Pairwise (fun a b => a.url ≠ b.url)) :
    (upsertPractice now r s).2.practices.countP (fun p => p.url == r.url) = 1 := by
  unfold upsertPractice
  cases hf : s.practices.find? (fun p => p.url == r.url) with
  | none =>
    have h0 : s.practices.countP (fun p => p.url == r.url) = 0 := by
      rw [List.countP_eq_zero]
      exact fun p hp => by simpa using List.find?_eq_none.mp hf p hp
    simp [List.countP_append, h0, applyRecord_url, List.countP_cons]
  | some p =>
    have hmem := List.mem_of_find?_eq_some hf
    have hb := List.find?_some hf
    have hurl : p.url = r.url := by simpa using hb
    show (s.practices.map fun q =>
        if q.url == r.url then applyRecord now r q else q).countP
        (fun p => p.url == r.url) = 1
    rw [List.countP_map]
    have hcong : ((fun p : Practice => p.url == r.url) ∘ fun q =>
        if q.url == r.url then applyRecord now r q else q)
        = fun q : Practice => q.url == r.url := by
      funext q
      show ((if q.url == r.url then applyRecord now r q else q).url == r.url)
        = (q.url == r.url)
      rw [upsertMap_url]
    rw [hcong]
    exact countP_key_eq_one Practice.url r.url h hmem hurl

/-- Url distinctness of the practices table is preserved by upsert. -/
theorem upsertPractice_pairwise (now : Nat) (r : PracticeRecord) (s : Store)
    (h : s.practices.Pairwise (fun a b => a.url ≠ b.url)) :
    (upsertPractice now r s).2.practices.Pairwise (fun a b => a.url ≠ b.url) := by
  unfold upsertPractice
  cases hf : s.practices.find? (fun p => p.url == r.url) with
  | none =>
    rw [List.pairwise_append]
    refine ⟨h, List.pairwise_singleton _ _, ?_⟩
    intro a ha b hb
    rw [List.mem_singleton.mp hb, applyRecord_url]
    show a.url ≠ r.url
    simpa using List.find?_eq_none.mp hf a ha
  | some p =>
    rw [List.pairwise_map]
    exact h.imp fun {a b} hab => by
      rw [upsertMap_url, upsertMap_url]
      exact hab

/-- Ensuring a lead never touches the `practices` table. -/
theorem ensureLead_practices (now pid : Nat) (s : Store) :
    (ensureLead now pid s).2.practices = s.practices := by
  unfold ensureLead
  cases s.leads.find? (fun l => l.practice_id == pid) <;> rfl

/-- When a lead for the practice already exists, `ensureLead` returns its id
and leaves the store untouched. -/
theorem ensureLead_found (now pid : Nat) (s : Store) (l : Lead)
    (h : s.leads.find? (fun l => l.practice_id == pid) = some l) :
    ensureLead now pid s = (l.id, s) := by
  unfold ensureLead
  rw [h]

/-- When no lead for the practice exists, `ensureLead` appends a fresh
`newLeadRow` and returns the fresh id. -/
theorem ensureLead_new (now pid : Nat) (s : Store)
    (h : s.leads.find? (fun l => l.practice_id == pid) = none) :
    ensureLead now pid s =
      (s.nextLeadId,
       { s with leads := s.leads ++ [newLeadRow now pid s.nextLeadId],
                nextLeadId := s.nextLeadId + 1 }) := by
  unfold ensureLead
  rw [h]

/-- With pairwise-distinct practice references, `ensureLead` leaves exactly
one lead of the given practice. -/
theorem ensureLead_countP (now pid : Nat) (s : Store)
    (h : s.leads.Pairwise (fun a b => a.practice_id ≠ b.practice_id)) :
    (ensureLead now pid s).2.leads.countP (fun l => l.practice_id == pid) = 1 := by
  unfold ensureLead
  cases hf : s.leads.find? (fun l => l.practice_id == pid) with
  | none =>
    have h0 : s.leads.countP (fun l => l.practice_id == pid) = 0 := by
      rw [List.countP_eq_zero]
      exact fun l hl => by simpa using List.find?_eq_none.mp hf l hl
    simp [List.countP_append, h0, List.countP_cons, newLeadRow]
  | some l =>
    have hmem := List.mem_of_find?_eq_some hf
    have hpid : l.practice_id = pid := by simpa using List.find?_some hf
    exact countP_key_eq_one Lead.practice_id pid h hmem hpid

/-- Practice-reference distinctness of the leads table is preserved by
`ensureLead`. -/
theorem ensureLead_pairwise (now pid : Nat) (s : Store)
    (h : s.leads.Pairwise (fun a b => a.practice_id ≠ b.practice_id)) :
    (ensureLead now pid s).2.leads.Pairwise
      (fun a b => a.practice_id ≠ b.practice_id) := by
  unfold ensureLead
  cases hf : s.leads.find? (fun l => l.practice_id == pid) with
  | none =>
    rw [List.pairwise_append]
    refine ⟨h, List.pairwise_singleton _ _, ?_⟩
    intro a ha b hb
    rw [List.mem_singleton.mp hb]
    show a.practice_id ≠ pid
    simpa using List.find?_eq_none.mp hf a ha
  | some l => exact h

/-- After `ensureLead` some lead row references the practice, and its id is
the returned id. -/
theorem ensureLead_mem (now pid : Nat) (t : Store) :
    ∃ l ∈ (ensureLead now pid t).2.leads,
      l.practice_id = pid ∧ l.id = (ensureLead now pid t).1 := by
  unfold ensureLead
  cases hf : t.leads.find? (fun l => l.practice_id == pid) with
  | some l =>
    exact ⟨l, List.mem_of_find?_eq_some hf, by simpa using List.find?_some hf, rfl⟩
  | none =>
    exact ⟨newLeadRow now pid t.nextLeadId,
      List.mem_append_right _ (List.mem_singleton.mpr rfl), rfl, rfl⟩

/-- When no lead referenced the practice, the row `ensureLead` creates has
status `new` and the returned id. -/
theorem ensureLead_mem_new (now pid : Nat) (t : Store)
    (h : t.leads.find? (fun l => l.practice_id == pid) = none) :
    ∃ l ∈ (ensureLead now pid t).2.leads,
      l.id = (ensureLead now pid t).1 ∧ l.practice_id = pid ∧
      l.status = "new" := by
  rw [ensureLead_new now pid t h]
  exact ⟨newLeadRow now pid t.nextLeadId,
    List.mem_append_right _ (List.mem_singleton.mpr rfl), rfl, rfl, rfl⟩

/-- C7: re-ingesting the same record (`upsertPractice` then `ensureLead`,
the populate-script step modelled by `ingest`) is idempotent on a store with
unique practice urls and at most one lead per practice: the second run
returns the same practice id and the same (existing) lead id, afterwards
exactly one practice row carries the url and exactly one lead references the
practice, the second run adds no lead, and a lead created by the first run
carries status `new`. -/
theorem C7_ingest_idempotent (n1 n2 : Nat) (r : PracticeRecord) (s : Store)
    (hu : s.practices.Pairwise (fun a b => a.url ≠ b.url))
    (hp : s.leads.Pairwise (fun a b => a.practice_id ≠ b.practice_id)) :
    (ingest n2 r (ingest n1 r s).2.2).1 = (ingest n1 r s).1 ∧
    (ingest n2 r (ingest n1 r s).2.2).2.1 = (ingest n1 r s).2.1 ∧
    (ingest n2 r (ingest n1 r s).2.2).2.2.practices.countP
        (fun p => p.url == r.url) = 1 ∧
    (ingest n2 r (ingest n1 r s).2.2).2.2.leads.countP
        (fun l => l.practice_id == (ingest n1 r s).1) = 1 ∧
    (ingest n2 r (ingest n1 r s).2.2).2.2.leads = (ingest n1 r s).2.2.leads ∧
    (s.leads.find? (fun l => l.practice_id == (ingest n1 r s).1) = none →
      ∃ l ∈ (ingest n2 r (ingest n1 r s).2.2).2.2.leads,
        l.id = (ingest n1 r s).2.1 ∧ l.practice_id = (ingest n1 r s).1 ∧
        l.status = "new") := by
  simp only [ingest]
  set pid := (upsertPractice n1 r s).1 with hpid
  set sA := (upsertPractice n1 r s).2 with hsA
  set lid := (ensureLead n1 pid sA).1 with hlid
  set s1 := (ensureLead n1 pid sA).2 with hs1
  set pid2 := (upsertPractice n2 r s1).1 with hpid2q
  set sB := (upsertPractice n2 r s1).2 with hsB
  have hA_leads : sA.leads = s.leads := by
    rw [hsA]; exact upsertPractice_leads n1 r s
  have huA : sA.practices.Pairwise (fun a b => a.url ≠ b.url) := by
    rw [hsA]; exact upsertPractice_pairwise n1 r s hu
  have hcountA : sA.practices.countP (fun p => p.url == r.url) = 1 := by
    rw [hsA]; exact upsertPractice_countP n1 r s hu
  obtain ⟨pstar, hpsmem, hpsid, hpsurl⟩ := upsertPractice_mem_url n1 r s
  rw [← hsA] at hpsmem
  rw [← hpid] at hpsid
  have hpA : sA.leads.Pairwise (fun a b => a.practice_id ≠ b.practice_id) := by
    rw [hA_leads]; exact hp
  have hs1_practices : s1.practices = sA.practices := by
    rw [hs1]; exact ensureLead_practices n1 pid sA
  have hcount1 : s1.leads.countP (fun l => l.practice_id == pid) = 1 := by
    rw [hs1]; exact ensureLead_countP n1 pid sA hpA
  have hp1 : s1.leads.Pairwise (fun a b => a.practice_id ≠ b.practice_id) := by
    rw [hs1]; exact ensureLead_pairwise n1 pid sA hpA
  have hu1 : s1.practices.Pairwise (fun a b => a.url ≠ b.url) := by
    rw [hs1_practices]; exact huA
  obtain ⟨lrow, hlrmem, hlrpid, hlrid⟩ := ensureLead_mem n1 pid sA
  rw [← hs1] at hlrmem
  rw [← hlid] at hlrid
  have hps1mem : pstar ∈ s1.practices := by rw [hs1_practices]; exact hpsmem
  have hsome : (s1.practices.find? (fun p => p.url == r.url)).isSome :=
    List.find?_isSome.mpr ⟨pstar, hps1mem, by simp [hpsurl]⟩
  obtain ⟨q, hq⟩ := Option.isSome_iff_exists.mp hsome
  have hqmem : q ∈ s1.practices := List.mem_of_find?_eq_some hq
  have hqb := List.find?_some hq
  have hqurl : q.url = r.url := by simpa using hqb
  have hqps : q = pstar :=
    eq_of_pairwise_key Practice.url hu1 hqmem hps1mem (by rw [hqurl, hpsurl])
  have hU2 : upsertPractice n2 r s1 = (q.id,
      { s1 with practices := s1.practices.map fun t =>
          if t.url == r.url then applyRecord n2 r t else t }) := by
    unfold upsertPractice
    rw [hq]
  have hpid2 : pid2 = pid := by
    rw [hpid2q, hU2]
    show q.id = pid
    rw [hqps]
    exact hpsid
  have hB_leads : sB.leads = s1.leads := by
    rw [hsB]; exact upsertPractice_leads n2 r s1
  have hcountB : sB.practices.countP (fun p => p.url == r.url) = 1 := by
    rw [hsB]; exact upsertPractice_countP n2 r s1 hu1
  have hlrmemB : lrow ∈ sB.leads := by rw [hB_leads]; exact hlrmem
  have hsome2 : (sB.leads.find? (fun l => l.practice_id == pid2)).isSome :=
    List.find?_isSome.mpr ⟨lrow, hlrmemB, by simp [hlrpid, hpid2]⟩
  obtain ⟨lstar, hls⟩ := Option.isSome_iff_exists.mp hsome2
  have hlsmem : lstar ∈ sB.leads := List.mem_of_find?_eq_some hls
  have hlsb := List.find?_some hls
  have hlspid : lstar.practice_id = pid2 := by simpa using hlsb
  rw [hB_leads] at hlsmem
  have hlseq : lstar = lrow :=
    eq_of_pairwise_key Lead.practice_id hp1 hlsmem hlrmem
      (by rw [hlspid, hpid2, hlrpid])
  have hE2 : ensureLead n2 pid2 sB = (lstar.id, sB) :=
    ensureLead_found n2 pid2 sB lstar hls
  refine ⟨hpid2, ?_, ?_, ?_, ?_, ?_⟩
  · rw [hE2]
    show lstar.id = lid
    rw [hlseq]
    exact hlrid
  · rw [hE2]
    exact hcountB
  · rw [hE2]
    show sB.leads.countP (fun l => l.practice_id == pid) = 1
    rw [hB_leads]
    exact hcount1
  · rw [hE2]
    exact hB_leads
  · intro hnone
    have hnoneA : sA.leads.find? (fun l => l.practice_id == pid) = none := by
      rw [hA_leads]; exact hnone
    obtain ⟨lnew, hlnmem, hlnid, hlnpid, hlnst⟩ := ensureLead_mem_new n1 pid sA hnoneA
    rw [← hs1] at hlnmem
    rw [← hlid] at hlnid
    refine ⟨lnew, ?_, hlnid, hlnpid, hlnst⟩
    rw [hE2]
    show lnew ∈ sB.leads
    rw [hB_leads]
    exact hlnmem

/-- The record the example scenario of the spec ingests. -/
def demoRecord : PracticeRecord :=
  { url := "a.example/1", name := some "Acme Arch", website := none,
    socials := none, email := some "x@a.example", address := none,
    contact := none, description := none, years_active := none, staff := none,
    awards := none, source := none }

/-- The empty store the demo ingestion starts from. -/
def emptyStore : Store :=
  { practices := [], leads := [], activities := [],
    nextPracticeId := 1, nextLeadId := 1, nextActivityId := 1 }

/-- C7 witness: ingesting the demo record twice into the empty store keeps
one practice row for the url and one lead for it, returns the same ids, and
the lead created by the first run has status `new`. -/
theorem C7_ingest_idempotent_witness :
    (ingest 1 demoRecord (ingest 0 demoRecord emptyStore).2.2).1
        = (ingest 0 demoRecord emptyStore).1 ∧
    (ingest 1 demoRecord (ingest 0 demoRecord emptyStore).2.2).2.1
        = (ingest 0 demoRecord emptyStore).2.1 ∧
    (ingest 1 demoRecord (ingest 0 demoRecord emptyStore).2.2).2.2.practices.countP
        (fun p => p.url == demoRecord.url) = 1 ∧
    (ingest 1 demoRecord (ingest 0 demoRecord emptyStore).2.2).2.2.leads.countP
        (fun l => l.practice_id == (ingest 0 demoRecord emptyStore).1) = 1 ∧
    (ingest 1 demoRecord (ingest 0 demoRecord emptyStore).2.2).2.2.leads
        = (ingest 0 demoRecord emptyStore).2.2.leads ∧
    (emptyStore.leads.find?
        (fun l => l.practice_id == (ingest 0 demoRecord emptyStore).1) = none →
      ∃ l ∈ (ingest 1 demoRecord (ingest 0 demoRecord emptyStore).2.2).2.2.leads,
        l.id = (ingest 0 demoRecord emptyStore).2.1 ∧
        l.practice_id = (ingest 0 demoRecord emptyStore).1 ∧
        l.status = "new") :=
  C7_ingest_idempotent 0 1 demoRecord emptyStore List.Pairwise.nil List.Pairwise.nil

end Blocharch
